import Mathlib

/-!
Verification of the RBAC manifest generator (`pkg/generate/rbac` of
controller-tools): a shallow embedding of `ManifestOptions.Validate`,
`Generate`, `getClusterRoleManifest` and `getClusterRoleBindingManifest`,
plus a model of the rule aggregation performed by the (out-of-tree)
`ParseDir` collaborator, and proofs of the specified properties.
-/

namespace rbac

/-- Embeds `rbacv1.PolicyRule`: one permission rule. -/
structure PolicyRule where
  Verbs : List String
  APIGroups : List String
  Resources : List String
  ResourceNames : List String
  NonResourceURLs : List String
deriving DecidableEq, Repr

/-- Embeds `metav1.TypeMeta`: the schema/version marker pair. -/
structure TypeMeta where
  Kind : String
  APIVersion : String
deriving DecidableEq, Repr

/-- Embeds the fields of `metav1.ObjectMeta` this generator sets.
A Go `map[string]string` is embedded as an association list; Go maps
never hold a key twice. -/
structure ObjectMeta where
  Name : String
  Labels : List (String × String)
deriving DecidableEq, Repr

/-- Embeds `rbacv1.ClusterRole` (the fields the generator sets). -/
structure ClusterRole where
  typeMeta : TypeMeta
  objectMeta : ObjectMeta
  Rules : List PolicyRule
deriving DecidableEq, Repr

/-- Embeds `rbacv1.Subject` (the fields the generator sets). -/
structure Subject where
  Kind : String
  Name : String
  Namespace : String
deriving DecidableEq, Repr

/-- Embeds `rbacv1.RoleRef`. -/
structure RoleRef where
  APIGroup : String
  Kind : String
  Name : String
deriving DecidableEq, Repr

/-- Embeds `rbacv1.ClusterRoleBinding` (the fields the generator sets). -/
structure ClusterRoleBinding where
  typeMeta : TypeMeta
  objectMeta : ObjectMeta
  Subjects : List Subject
  roleRef : RoleRef
deriving DecidableEq, Repr

/-- Embeds `rbac.ManifestOptions`. -/
structure ManifestOptions where
  InputDir : String
  OutputDir : String
  Name : String
  Labels : List (String × String)
deriving DecidableEq, Repr

/-! ## The rule aggregation performed by the rule source

`Generate` obtains its rules from `ParseDir`, whose body lives outside
this tree.  The specification describes it as a scan producing raw rules
followed by a Rule Aggregator.  The aggregator is modelled here from the
spec's words. -/

/-- The tuple of non-verb fields of a rule: the grouping key of the
aggregator. -/
structure RuleKey where
  apiGroups : List String
  resources : List String
  resourceNames : List String
  nonResourceURLs : List String
deriving DecidableEq, Repr

/-- The grouping key of a rule. -/
def ruleKey (r : PolicyRule) : RuleKey :=
  ⟨r.APIGroups, r.Resources, r.ResourceNames, r.NonResourceURLs⟩

/-- Encoding of a key as a list of its four components, used to order
keys lexicographically. -/
def RuleKey.enc (k : RuleKey) : List (List String) :=
  [k.apiGroups, k.resources, k.resourceNames, k.nonResourceURLs]

/-- Lexicographic order on grouping keys, via the component encoding. -/
def keyLE (a b : RuleKey) : Prop := a.enc ≤ b.enc

instance : DecidableRel keyLE := fun a b =>
  inferInstanceAs (Decidable (a.enc ≤ b.enc))

/-- Sort a list of strings lexicographically. -/
def sortStrings (l : List String) : List String :=
  l.insertionSort (· ≤ ·)

/-- Modelled from the spec: the verb set of one aggregated group — the
union of the `verbs` of all input rules sharing the key `k`, without
duplicates, sorted lexicographically. -/
def groupVerbs (l : List PolicyRule) (k : RuleKey) : List String :=
  sortStrings ((l.filter (fun r => ruleKey r = k)).flatMap (fun r => r.Verbs)).dedup

/-- Modelled from the spec: the single output rule the aggregator emits
for the group with key `k`. -/
def mkRule (l : List PolicyRule) (k : RuleKey) : PolicyRule :=
  { Verbs := groupVerbs l k
    APIGroups := k.apiGroups
    Resources := k.resources
    ResourceNames := k.resourceNames
    NonResourceURLs := k.nonResourceURLs }

/-- Modelled from the spec: the Rule Aggregator inside the out-of-tree
`ParseDir` — group rules by the tuple of non-verb fields, emit one rule
per group carrying the unioned verb set, groups sorted lexicographically
by key and verbs sorted lexicographically within each rule. -/
def aggregate (l : List PolicyRule) : List PolicyRule :=
  (((l.map ruleKey).dedup).insertionSort keyLE).map (mkRule l)

/-! ## The builders and the renderer -/

/-- The `rbacv1.ClusterRole` value that `getClusterRoleManifest`
constructs before marshalling. -/
def getClusterRoleRole (rules : List PolicyRule) (o : ManifestOptions) : ClusterRole :=
  { typeMeta := { Kind := "ClusterRole", APIVersion := "rbac.authorization.k8s.io/v1" }
    objectMeta := { Name := o.Name ++ "-role", Labels := o.Labels }
    Rules := rules }

/-- The `rbacv1.ClusterRoleBinding` value that
`getClusterRoleBindingManifest` constructs before marshalling. -/
def getClusterRoleBindingBinding (o : ManifestOptions) : ClusterRoleBinding :=
  { typeMeta := { APIVersion := "rbac.authorization.k8s.io/v1", Kind := "ClusterRoleBinding" }
    objectMeta := { Name := o.Name ++ "-rolebinding", Labels := o.Labels }
    Subjects := [{ Name := "default", Namespace := o.Name ++ "-system", Kind := "ServiceAccount" }]
    roleRef := { Name := o.Name ++ "-role", Kind := "ClusterRole",
                 APIGroup := "rbac.authorization.k8s.io" } }

/-- Order on label entries used by the marshaller: lexicographic on the
key, then the value.  `ghodss/yaml` marshals a Go map with its keys in
sorted order; Go maps are duplicate-free, so ordering pairs
lexicographically coincides with ordering by key. -/
def pairLE (a b : String × String) : Prop := [a.1, a.2] ≤ [b.1, b.2]

instance : DecidableRel pairLE := fun a b =>
  inferInstanceAs (Decidable ([a.1, a.2] ≤ [b.1, b.2]))

/-- Renders a label map the way the marshaller serialises a Go map:
entries in sorted key order. -/
def renderLabels (labels : List (String × String)) : String :=
  String.intercalate "," ((labels.insertionSort pairLE).map (fun kv => kv.1 ++ "=" ++ kv.2))

/-- Renders a list of strings as a YAML flow sequence body. -/
def renderStrings (l : List String) : String :=
  String.intercalate "," l

/-- Renders one policy rule field by field. -/
def renderRule (r : PolicyRule) : String :=
  "apiGroups:" ++ renderStrings r.APIGroups ++
  ";resources:" ++ renderStrings r.Resources ++
  ";resourceNames:" ++ renderStrings r.ResourceNames ++
  ";nonResourceURLs:" ++ renderStrings r.NonResourceURLs ++
  ";verbs:" ++ renderStrings r.Verbs

/-- Embeds `yaml.Marshal` on a `ClusterRole`: a deterministic structural
serialisation of the role's logical fields, with map keys in sorted
order (as `ghodss/yaml` emits them). -/
def yamlMarshalRole (c : ClusterRole) : String :=
  "apiVersion: " ++ c.typeMeta.APIVersion ++
  "\nkind: " ++ c.typeMeta.Kind ++
  "\nmetadata:\n  labels: " ++ renderLabels c.objectMeta.Labels ++
  "\n  name: " ++ c.objectMeta.Name ++
  "\nrules:\n" ++ String.intercalate "\n" (c.Rules.map (fun r => "- " ++ renderRule r))

/-- Renders one binding subject field by field. -/
def renderSubject (s : Subject) : String :=
  "kind:" ++ s.Kind ++ ";name:" ++ s.Name ++ ";namespace:" ++ s.Namespace

/-- Embeds `yaml.Marshal` on a `ClusterRoleBinding`. -/
def yamlMarshalBinding (b : ClusterRoleBinding) : String :=
  "apiVersion: " ++ b.typeMeta.APIVersion ++
  "\nkind: " ++ b.typeMeta.Kind ++
  "\nmetadata:\n  labels: " ++ renderLabels b.objectMeta.Labels ++
  "\n  name: " ++ b.objectMeta.Name ++
  "\nroleRef:\n  apiGroup: " ++ b.roleRef.APIGroup ++
  "\n  kind: " ++ b.roleRef.Kind ++
  "\n  name: " ++ b.roleRef.Name ++
  "\nsubjects:\n" ++ String.intercalate "\n" (b.Subjects.map (fun s => "- " ++ renderSubject s))

/-- Embeds `getClusterRoleManifest`: build the role, marshal it.
`yaml.Marshal` cannot fail on these fixed-shape values, so the error arm
is never taken; `Generate` still checks it, as the Go code does. -/
def getClusterRoleManifest (rules : List PolicyRule) (o : ManifestOptions) :
    Except String String :=
  .ok (yamlMarshalRole (getClusterRoleRole rules o))

/-- Embeds `getClusterRoleBindingManifest`. -/
def getClusterRoleBindingManifest (o : ManifestOptions) : Except String String :=
  .ok (yamlMarshalBinding (getClusterRoleBindingBinding o))

/-! ## The driver -/

/-- The effectful environment `Generate` runs against: `stat` returns
`some errMsg` when `os.Stat` fails for a path; `scanDir` is the
out-of-tree scan of the input tree into raw rules (or a scan error);
`writeFile` returns `some errMsg` when `ioutil.WriteFile` fails. -/
structure Env where
  stat : String → Option String
  scanDir : String → Except String (List PolicyRule)
  writeFile : String → String → Option String

/-- Embeds `ManifestOptions.Validate`: stat the input directory, then
the output directory, wrapping a failure in the code's message. -/
def Validate (env : Env) (o : ManifestOptions) : Option String :=
  match env.stat o.InputDir with
  | some e => some ("invalid input directory '" ++ o.InputDir ++ "' " ++ e)
  | none =>
    match env.stat o.OutputDir with
    | some e => some ("invalid output directory '" ++ o.OutputDir ++ "' " ++ e)
    | none => none

/-- Modelled from the spec: the out-of-tree `ParseDir` — the external
scan of the input tree followed by the Rule Aggregator. -/
def ParseDir (env : Env) (dir : String) : Except String (List PolicyRule) :=
  (env.scanDir dir).map aggregate

/-- Embeds `filepath.Join` for the two fixed file names used here. -/
def filepathJoin (dir name : String) : String := dir ++ "/" ++ name

/-- The observable outcome of one `Generate` run: the files written (in
order, with their bytes) and the returned error, `none` on success. -/
structure GenResult where
  written : List (String × String)
  error : Option String
deriving DecidableEq, Repr

/-- Embeds `Generate`: validate, parse, short-circuit on zero rules,
build both manifests, write the role file then the binding file. -/
def Generate (env : Env) (o : ManifestOptions) : GenResult :=
  match Validate env o with
  | some e => ⟨[], some e⟩
  | none =>
    match ParseDir env o.InputDir with
    | .error e => ⟨[], some ("failed to parse the input dir " ++ e)⟩
    | .ok rules =>
      if rules.length = 0 then ⟨[], none⟩
      else
        match getClusterRoleManifest rules o with
        | .error e => ⟨[], some ("failed to generate role manifest " ++ e)⟩
        | .ok roleManifest =>
          match getClusterRoleBindingManifest o with
          | .error e => ⟨[], some ("failed to generate role binding manifests " ++ e)⟩
          | .ok roleBindingManifest =>
            let roleManifestFile := filepathJoin o.OutputDir "rbac_role.yaml"
            match env.writeFile roleManifestFile roleManifest with
            | some e => ⟨[], some ("failed to write role manifest YAML file " ++ e)⟩
            | none =>
              let roleBindingManifestFile := filepathJoin o.OutputDir "rbac_role_binding.yaml"
              match env.writeFile roleBindingManifestFile roleBindingManifest with
              | some e => ⟨[(roleManifestFile, roleManifest)],
                  some ("failed to write role manifest YAML file " ++ e)⟩
              | none => ⟨[(roleManifestFile, roleManifest),
                  (roleBindingManifestFile, roleBindingManifest)], none⟩

/-! ## Order-theoretic facts about the sorting relations -/

lemma RuleKey.enc_injective : Function.Injective RuleKey.enc := by
  intro a b h
  cases a
  cases b
  simpa [RuleKey.enc, RuleKey.mk.injEq] using h

instance : IsTotal RuleKey keyLE := ⟨fun a b => le_total a.enc b.enc⟩

instance : IsTrans RuleKey keyLE := ⟨fun _ _ _ h₁ h₂ => le_trans h₁ h₂⟩

instance : IsAntisymm RuleKey keyLE :=
  ⟨fun _ _ h₁ h₂ => RuleKey.enc_injective (le_antisymm h₁ h₂)⟩

lemma pair_enc_injective :
    Function.Injective (fun p : String × String => [p.1, p.2]) := by
  intro a b h
  simp only [List.cons.injEq, and_true] at h
  exact Prod.ext h.1 h.2

instance : IsTotal (String × String) pairLE :=
  ⟨fun a b => le_total [a.1, a.2] [b.1, b.2]⟩

instance : IsTrans (String × String) pairLE := ⟨fun _ _ _ h₁ h₂ => le_trans h₁ h₂⟩

instance : IsAntisymm (String × String) pairLE :=
  ⟨fun _ _ h₁ h₂ => pair_enc_injective (le_antisymm h₁ h₂)⟩

/-- Sorting a list with an antisymmetric, total, transitive relation is
invariant under permutation of the input. -/
lemma insertionSort_perm_eq {α : Type} (r : α → α → Prop) [DecidableRel r]
    [IsTotal α r] [IsTrans α r] [IsAntisymm α r] {l₁ l₂ : List α}
    (h : l₁.Perm l₂) : l₁.insertionSort r = l₂.insertionSort r :=
  List.eq_of_perm_of_sorted
    (((List.perm_insertionSort r l₁).trans h).trans (List.perm_insertionSort r l₂).symm)
    (List.sorted_insertionSort r l₁) (List.sorted_insertionSort r l₂)

lemma sortStrings_perm_eq {l₁ l₂ : List String} (h : l₁.Perm l₂) :
    sortStrings l₁ = sortStrings l₂ :=
  insertionSort_perm_eq _ h

lemma groupVerbs_perm_eq {l₁ l₂ : List PolicyRule} (h : l₁.Perm l₂) (k : RuleKey) :
    groupVerbs l₁ k = groupVerbs l₂ k :=
  sortStrings_perm_eq (((h.filter _).flatMap_right _).dedup)

lemma mkRule_perm_eq {l₁ l₂ : List PolicyRule} (h : l₁.Perm l₂) (k : RuleKey) :
    mkRule l₁ k = mkRule l₂ k := by
  simp [mkRule, groupVerbs_perm_eq h k]

lemma ruleKey_mkRule (l : List PolicyRule) (k : RuleKey) : ruleKey (mkRule l k) = k := rfl

/-- In a duplicate-free list, filtering for a member leaves exactly that
member. -/
lemma filter_eq_singleton_of_nodup {α : Type} [DecidableEq α] {l : List α} {a : α}
    (hn : l.Nodup) (ha : a ∈ l) : l.filter (fun x => x = a) = [a] := by
  induction l with
  | nil => cases ha
  | cons b t ih =>
    obtain ⟨hb, ht⟩ := List.nodup_cons.mp hn
    by_cases hba : b = a
    · subst hba
      have hnil : t.filter (fun x => x = b) = [] := by
        refine List.filter_eq_nil_iff.mpr fun x hx => ?_
        simp only [decide_eq_true_eq]
        intro hxa
        exact hb (hxa ▸ hx)
      simp [List.filter_cons, hnil]
    · have ha' : a ∈ t := by
        rcases List.mem_cons.mp ha with h | h
        · exact absurd h.symm hba
        · exact h
      simp [List.filter_cons, hba, ih ht ha']

/-- Label rendering depends only on the logical content of the label
map, not on the order its entries are listed in. -/
lemma renderLabels_perm_eq {l₁ l₂ : List (String × String)} (h : l₁.Perm l₂) :
    renderLabels l₁ = renderLabels l₂ := by
  unfold renderLabels
  rw [insertionSort_perm_eq pairLE h]

/-! ## Concrete fixtures used by the witnesses -/

/-- The rule of the spec's worked scenario: `get` on pods. -/
def podGetRule : PolicyRule := ⟨["get"], [""], ["pods"], [], []⟩

/-- The second rule of the spec's worked scenario: `list` on pods. -/
def podListRule : PolicyRule := ⟨["list"], [""], ["pods"], [], []⟩

/-- A healthy environment whose scan finds no rules. -/
def okEnv : Env :=
  { stat := fun _ => none
    scanDir := fun _ => Except.ok []
    writeFile := fun _ _ => none }

/-- A healthy environment whose scan finds the two scenario rules. -/
def oneRuleEnv : Env :=
  { stat := fun _ => none
    scanDir := fun _ => Except.ok [podGetRule, podListRule]
    writeFile := fun _ _ => none }

/-- An environment where `os.Stat` fails on every path. -/
def badStatEnv : Env :=
  { stat := fun _ => some "no such file or directory"
    scanDir := fun _ => Except.ok [podGetRule]
    writeFile := fun _ _ => none }

/-! ## The claims -/

/-- Claim C3: for a non-empty identity name, the role is named
`N-role`, the binding `N-rolebinding`, the binding's role reference
equals the role's name, the subject namespace is `N-system` and the
subject name is the literal `default`. -/
theorem naming_consistent (rules : List PolicyRule) (o : ManifestOptions)
    (_h : o.Name ≠ "") :
    (getClusterRoleRole rules o).objectMeta.Name = o.Name ++ "-role" ∧
    (getClusterRoleBindingBinding o).objectMeta.Name = o.Name ++ "-rolebinding" ∧
    (getClusterRoleBindingBinding o).roleRef.Name =
      (getClusterRoleRole rules o).objectMeta.Name ∧
    (getClusterRoleBindingBinding o).Subjects.map Subject.Namespace =
      [o.Name ++ "-system"] ∧
    (getClusterRoleBindingBinding o).Subjects.map Subject.Name = ["default"] :=
  ⟨rfl, rfl, rfl, rfl, rfl⟩

theorem naming_consistent_witness :
    (("manager" : String) ≠ "") ∧
    ((getClusterRoleRole [] ⟨"pkg", "config", "manager", []⟩).objectMeta.Name =
        "manager" ++ "-role" ∧
      (getClusterRoleBindingBinding ⟨"pkg", "config", "manager", []⟩).objectMeta.Name =
        "manager" ++ "-rolebinding" ∧
      (getClusterRoleBindingBinding ⟨"pkg", "config", "manager", []⟩).roleRef.Name =
        (getClusterRoleRole [] ⟨"pkg", "config", "manager", []⟩).objectMeta.Name ∧
      (getClusterRoleBindingBinding ⟨"pkg", "config", "manager", []⟩).Subjects.map
          Subject.Namespace = ["manager" ++ "-system"] ∧
      (getClusterRoleBindingBinding ⟨"pkg", "config", "manager", []⟩).Subjects.map
          Subject.Name = ["default"]) :=
  ⟨by decide, naming_consistent [] ⟨"pkg", "config", "manager", []⟩ (by decide)⟩

/-- Claim C7: the role builder places the rule list it is given into the
role verbatim and copies the labels verbatim from the options. -/
theorem role_builder_verbatim (rules : List PolicyRule) (o : ManifestOptions) :
    (getClusterRoleRole rules o).Rules = rules ∧
    (getClusterRoleRole rules o).objectMeta.Labels = o.Labels :=
  ⟨rfl, rfl⟩

/-- Claim C8: the role always carries the fixed marker pair
`(ClusterRole, rbac.authorization.k8s.io/v1)` and the binding the fixed,
different pair `(ClusterRoleBinding, rbac.authorization.k8s.io/v1)`,
independent of rules and options. -/
theorem type_meta_constant (rules : List PolicyRule) (o : ManifestOptions) :
    (getClusterRoleRole rules o).typeMeta =
      ⟨"ClusterRole", "rbac.authorization.k8s.io/v1"⟩ ∧
    (getClusterRoleBindingBinding o).typeMeta =
      ⟨"ClusterRoleBinding", "rbac.authorization.k8s.io/v1"⟩ ∧
    (⟨"ClusterRole", "rbac.authorization.k8s.io/v1"⟩ : TypeMeta) ≠
      ⟨"ClusterRoleBinding", "rbac.authorization.k8s.io/v1"⟩ :=
  ⟨rfl, rfl, by decide⟩

/-- Claim C10: the binding always has exactly one subject — the service
account `default` — and its role reference carries the fixed API group
`rbac.authorization.k8s.io`. -/
theorem binding_single_subject (o : ManifestOptions) :
    (getClusterRoleBindingBinding o).Subjects =
      [⟨"ServiceAccount", "default", o.Name ++ "-system"⟩] ∧
    (getClusterRoleBindingBinding o).roleRef.APIGroup = "rbac.authorization.k8s.io" :=
  ⟨rfl, rfl⟩

/-- Claim C4: when both directories exist and the scan yields no rules,
`Generate` writes nothing and returns success. -/
theorem empty_rules_no_output (env : Env) (o : ManifestOptions)
    (h₁ : env.stat o.InputDir = none) (h₂ : env.stat o.OutputDir = none)
    (h₃ : env.scanDir o.InputDir = Except.ok []) :
    Generate env o = ⟨[], none⟩ := by
  simp [Generate, Validate, ParseDir, h₁, h₂, h₃, aggregate, Except.map]

theorem empty_rules_no_output_witness :
    (okEnv.stat "pkg" = none ∧ okEnv.stat "config" = none ∧
      okEnv.scanDir "pkg" = Except.ok []) ∧
    Generate okEnv ⟨"pkg", "config", "manager", []⟩ = ⟨[], none⟩ :=
  ⟨⟨rfl, rfl, rfl⟩, empty_rules_no_output okEnv ⟨"pkg", "config", "manager", []⟩ rfl rfl rfl⟩

/-- Claim C6: a failure upstream of the writes — validation or scan —
aborts the run with that error and writes neither output file; an
invalid input directory in particular yields the configuration error
regardless of what the scan would return, so no scan is consulted. -/
theorem upstream_failure_writes_nothing (env : Env) (o : ManifestOptions) :
    (∀ e, Validate env o = some e → Generate env o = ⟨[], some e⟩) ∧
    (∀ e, Validate env o = none → env.scanDir o.InputDir = Except.error e →
      Generate env o = ⟨[], some ("failed to parse the input dir " ++ e)⟩) ∧
    (∀ e, env.stat o.InputDir = some e →
      Generate env o =
        ⟨[], some ("invalid input directory '" ++ o.InputDir ++ "' " ++ e)⟩) := by
  refine ⟨fun e hv => ?_, fun e hv hs => ?_, fun e hs => ?_⟩
  · simp [Generate, hv]
  · simp [Generate, hv, ParseDir, hs, Except.map]
  · simp [Generate, Validate, hs]

theorem upstream_failure_writes_nothing_witness :
    badStatEnv.stat "missing" = some "no such file or directory" ∧
    Generate badStatEnv ⟨"missing", "config", "manager", []⟩ =
      ⟨[], some ("invalid input directory '" ++ "missing" ++ "' " ++
        "no such file or directory")⟩ :=
  ⟨rfl, (upstream_failure_writes_nothing badStatEnv
    ⟨"missing", "config", "manager", []⟩).2.2 "no such file or directory" rfl⟩

/-- Claim C5 counterexample: with an empty identity name, two existing
directories and a scan that finds rules, `Generate` does not fail — it
succeeds and writes both files, so no ConfigurationError is raised for
the empty name. -/
theorem empty_name_not_rejected :
    (Generate oneRuleEnv ⟨"pkg", "config", "", []⟩).error = none ∧
    (Generate oneRuleEnv ⟨"pkg", "config", "", []⟩).written ≠ [] := by
  constructor
  · rfl
  · decide

/-- Claim C5 (amended): an empty identity name is not rejected —
`Validate` checks only the two directories, so generation proceeds
through scan, build and write, succeeding with degenerate names
`-role` and `-rolebinding`. -/
theorem empty_name_generation_succeeds (env : Env) (o : ManifestOptions)
    (hname : o.Name = "")
    (h₁ : env.stat o.InputDir = none) (h₂ : env.stat o.OutputDir = none)
    (rules : List PolicyRule) (h₃ : env.scanDir o.InputDir = Except.ok rules)
    (h₄ : aggregate rules ≠ [])
    (h₅ : ∀ f c, env.writeFile f c = none) :
    (Generate env o).error = none ∧
    (Generate env o).written =
      [(filepathJoin o.OutputDir "rbac_role.yaml",
        yamlMarshalRole (getClusterRoleRole (aggregate rules) o)),
       (filepathJoin o.OutputDir "rbac_role_binding.yaml",
        yamlMarshalBinding (getClusterRoleBindingBinding o))] ∧
    (getClusterRoleRole (aggregate rules) o).objectMeta.Name = "-role" ∧
    (getClusterRoleBindingBinding o).objectMeta.Name = "-rolebinding" := by
  have hlen : ¬(aggregate rules).length = 0 := by
    simpa [List.length_eq_zero] using h₄
  refine ⟨?_, ?_, ?_, ?_⟩ <;>
    simp [Generate, Validate, ParseDir, h₁, h₂, h₃, h₅, hlen, Except.map,
      getClusterRoleManifest, getClusterRoleBindingManifest,
      getClusterRoleRole, getClusterRoleBindingBinding, hname]

theorem empty_name_generation_succeeds_witness :
    (oneRuleEnv.scanDir "pkg" = Except.ok [podGetRule, podListRule] ∧
      aggregate [podGetRule, podListRule] ≠ []) ∧
    ((Generate oneRuleEnv ⟨"pkg", "config", "", []⟩).error = none ∧
      (Generate oneRuleEnv ⟨"pkg", "config", "", []⟩).written =
        [(filepathJoin "config" "rbac_role.yaml",
          yamlMarshalRole (getClusterRoleRole
            (aggregate [podGetRule, podListRule]) ⟨"pkg", "config", "", []⟩)),
         (filepathJoin "config" "rbac_role_binding.yaml",
          yamlMarshalBinding (getClusterRoleBindingBinding ⟨"pkg", "config", "", []⟩))] ∧
      (getClusterRoleRole (aggregate [podGetRule, podListRule])
        ⟨"pkg", "config", "", []⟩).objectMeta.Name = "-role" ∧
      (getClusterRoleBindingBinding ⟨"pkg", "config", "", []⟩).objectMeta.Name =
        "-rolebinding") :=
  ⟨⟨rfl, by decide⟩,
    empty_name_generation_succeeds oneRuleEnv ⟨"pkg", "config", "", []⟩ rfl rfl rfl
      [podGetRule, podListRule] rfl (by decide) (fun _ _ => rfl)⟩

/-- Claim C9: rendering is a function of logical content — for equal
identity names and label maps holding the same entries in any order,
the rendered role bytes and binding bytes are identical. -/
theorem render_deterministic (rules : List PolicyRule) (o₁ o₂ : ManifestOptions)
    (hn : o₁.Name = o₂.Name) (hl : o₁.Labels.Perm o₂.Labels) :
    getClusterRoleManifest rules o₁ = getClusterRoleManifest rules o₂ ∧
    getClusterRoleBindingManifest o₁ = getClusterRoleBindingManifest o₂ := by
  constructor
  · simp [getClusterRoleManifest, yamlMarshalRole, getClusterRoleRole, hn,
      renderLabels_perm_eq hl]
  · simp [getClusterRoleBindingManifest, yamlMarshalBinding,
      getClusterRoleBindingBinding, hn, renderLabels_perm_eq hl]

theorem render_deterministic_witness :
    (("manager" : String) = "manager" ∧
      List.Perm [("app", "x"), ("tier", "y")] [("tier", "y"), ("app", "x")]) ∧
    (getClusterRoleManifest [podGetRule]
        ⟨"pkg", "config", "manager", [("app", "x"), ("tier", "y")]⟩ =
      getClusterRoleManifest [podGetRule]
        ⟨"pkg", "config", "manager", [("tier", "y"), ("app", "x")]⟩ ∧
      getClusterRoleBindingManifest
        ⟨"pkg", "config", "manager", [("app", "x"), ("tier", "y")]⟩ =
      getClusterRoleBindingManifest
        ⟨"pkg", "config", "manager", [("tier", "y"), ("app", "x")]⟩) :=
  ⟨⟨rfl, by decide⟩,
    render_deterministic [podGetRule]
      ⟨"pkg", "config", "manager", [("app", "x"), ("tier", "y")]⟩
      ⟨"pkg", "config", "manager", [("tier", "y"), ("app", "x")]⟩ rfl (by decide)⟩

/-- Claim C2: the aggregated rule sequence is invariant under any
permutation of the input rule sequence — output order is a function of
input content only. -/
theorem aggregate_perm_invariant (l₁ l₂ : List PolicyRule) (h : l₁.Perm l₂) :
    aggregate l₁ = aggregate l₂ := by
  unfold aggregate
  rw [insertionSort_perm_eq keyLE ((h.map ruleKey).dedup)]
  exact List.map_congr_left fun k _ => mkRule_perm_eq h k

theorem aggregate_perm_invariant_witness :
    List.Perm [podGetRule, podListRule] [podListRule, podGetRule] ∧
    aggregate [podGetRule, podListRule] = aggregate [podListRule, podGetRule] :=
  ⟨by decide, aggregate_perm_invariant [podGetRule, podListRule]
    [podListRule, podGetRule] (by decide)⟩

/-- Claim C1: for every key actually occurring among the input rules the
aggregated list holds exactly one rule with that key, whose verb list is
duplicate-free and holds exactly the union of the verbs of the input
rules sharing the key; and every aggregated rule's key occurs among the
input rules. -/
theorem aggregate_merges_each_key (l : List PolicyRule) (k : RuleKey)
    (hk : k ∈ l.map ruleKey) :
    (aggregate l).filter (fun r => ruleKey r = k) = [mkRule l k] ∧
    (mkRule l k).Verbs.Nodup ∧
    (∀ v, v ∈ (mkRule l k).Verbs ↔ ∃ r₀ ∈ l, ruleKey r₀ = k ∧ v ∈ r₀.Verbs) ∧
    (∀ r ∈ aggregate l, ruleKey r ∈ l.map ruleKey) := by
  have hnod : (((l.map ruleKey).dedup).insertionSort keyLE).Nodup :=
    (List.perm_insertionSort keyLE _).symm.nodup (List.nodup_dedup _)
  have hmem : k ∈ ((l.map ruleKey).dedup).insertionSort keyLE := by
    simpa [List.mem_insertionSort, List.mem_dedup] using hk
  refine ⟨?_, ?_, ?_, ?_⟩
  · show ((((l.map ruleKey).dedup).insertionSort keyLE).map (mkRule l)).filter _ = _
    rw [List.filter_map]
    have hcomp : ((fun r => decide (ruleKey r = k)) ∘ mkRule l) =
        fun k' => decide (k' = k) := by
      funext k'
      simp [Function.comp, ruleKey_mkRule]
    rw [hcomp, filter_eq_singleton_of_nodup hnod hmem, List.map_singleton]
  · show (sortStrings _).Nodup
    exact (List.perm_insertionSort _ _).symm.nodup (List.nodup_dedup _)
  · intro v
    simp [mkRule, groupVerbs, sortStrings, List.mem_dedup, List.mem_flatMap,
      List.mem_filter, and_assoc]
  · intro r hr
    simp only [aggregate, List.mem_map, List.mem_insertionSort, List.mem_dedup] at hr
    obtain ⟨k', hk', rfl⟩ := hr
    simpa [ruleKey_mkRule] using hk'

theorem aggregate_merges_each_key_witness :
    ((⟨[""], ["pods"], [], []⟩ : RuleKey) ∈
      [podGetRule, podListRule].map ruleKey) ∧
    ((aggregate [podGetRule, podListRule]).filter
        (fun r => ruleKey r = ⟨[""], ["pods"], [], []⟩) =
      [mkRule [podGetRule, podListRule] ⟨[""], ["pods"], [], []⟩] ∧
      (mkRule [podGetRule, podListRule] ⟨[""], ["pods"], [], []⟩).Verbs.Nodup ∧
      (∀ v, v ∈ (mkRule [podGetRule, podListRule] ⟨[""], ["pods"], [], []⟩).Verbs ↔
        ∃ r₀ ∈ [podGetRule, podListRule],
          ruleKey r₀ = ⟨[""], ["pods"], [], []⟩ ∧ v ∈ r₀.Verbs) ∧
      (∀ r ∈ aggregate [podGetRule, podListRule],
        ruleKey r ∈ [podGetRule, podListRule].map ruleKey)) :=
  ⟨by decide, aggregate_merges_each_key [podGetRule, podListRule]
    ⟨[""], ["pods"], [], []⟩ (by decide)⟩

end rbac
